import Mathlib

/-!
Shallow embedding of `src/toolkit/billing_engine.py`.

Conventions of the embedding:
* SQLite tables become Lean lists kept in insertion (rowid) order;
  `AUTOINCREMENT` ids start at 1.
* Python floats are embedded as exact rationals (ℚ); `int(x)` is truncation
  toward zero (`pyInt`), Python `round(x, n)` is round-half-even (`pyRound`).
* Timestamps (`CURRENT_TIMESTAMP`, `datetime.now()`) are abstracted as
  integers supplied by the caller; ISO-string comparison in SQL is
  chronological comparison, so `created_at >= start` is `start ≤ created_at`.
* The Stripe gateway is external: its responses (success/failure, the
  invoice id and status it returns) are parameters of the embedded
  operations.  Stripe computes an invoice's `amount_due` as the sum of the
  `amount` fields of the invoice items submitted to it, which is how the
  embedding computes it.
-/

namespace BillingEngine

/-- A row of the `usage_events` table (`UsageTracker._init_db`). -/
structure UsageEvent where
  id : Nat
  customer_id : String
  service : String
  quantity : ℚ
  unit : String
  unit_price : ℚ
  created_at : Int
deriving DecidableEq

/-- A row of the `invoices` table (`UsageTracker._init_db`). -/
structure InvoiceRec where
  id : Nat
  customer_id : String
  stripe_invoice_id : String
  amount_cents : Int
  status : String
  period_start : Int
  period_end : Int
  paid_at : Option Int
deriving DecidableEq

/-- The SQLite database: both tables in rowid order plus the next
`AUTOINCREMENT` values. -/
structure DB where
  events : List UsageEvent
  next_event_id : Nat
  invoices : List InvoiceRec
  next_invoice_id : Nat
deriving DecidableEq

/-- A freshly initialised database (`_init_db`): empty tables,
`AUTOINCREMENT` counters at 1. -/
def DB.empty : DB := ⟨[], 1, [], 1⟩

/-- `UsageTracker.track_event`: inserts one row into `usage_events` with the
store-assigned id and timestamp.  The Python code performs no validation of
any argument. -/
def track_event (db : DB) (customer_id service : String) (quantity : ℚ)
    (unit : String) (unit_price : ℚ) (now : Int) : DB :=
  { db with
    events := db.events ++
      [{ id := db.next_event_id, customer_id := customer_id, service := service,
         quantity := quantity, unit := unit, unit_price := unit_price,
         created_at := now }],
    next_event_id := db.next_event_id + 1 }

/-- One element of the list returned by `get_unbilled_usage`: the selected
columns plus the computed `line_total = quantity * unit_price`. -/
structure EventRow where
  id : Nat
  service : String
  quantity : ℚ
  unit : String
  unit_price : ℚ
  created_at : Int
  line_total : ℚ
deriving DecidableEq

/-- The dictionary built for each fetched row in `get_unbilled_usage`. -/
def eventToRow (e : UsageEvent) : EventRow :=
  { id := e.id, service := e.service, quantity := e.quantity, unit := e.unit,
    unit_price := e.unit_price, created_at := e.created_at,
    line_total := e.quantity * e.unit_price }

/-- Insert into a `created_at`-sorted list, before any row with an equal
timestamp that came later in scan order (stable). -/
def insertByCreated (r : EventRow) : List EventRow → List EventRow
  | [] => [r]
  | x :: xs =>
    if r.created_at ≤ x.created_at then r :: x :: xs
    else x :: insertByCreated r xs

/-- `ORDER BY created_at` over rows scanned in rowid order: a stable sort on
`created_at`, so rows with equal timestamps stay in id order. -/
def sortByCreated : List EventRow → List EventRow
  | [] => []
  | x :: xs => insertByCreated x (sortByCreated xs)

/-- `UsageTracker.get_unbilled_usage`: selects the customer's rows
(optionally restricted to `created_at >= start_date`), ordered by
`created_at`.  Note the query has no billed/unbilled restriction: it selects
from all of `usage_events`. -/
def get_unbilled_usage (db : DB) (customer_id : String)
    (start_date : Option Int) : List EventRow :=
  let sel := db.events.filter fun e =>
    e.customer_id == customer_id &&
      (match start_date with
       | some t => decide (t ≤ e.created_at)
       | none => true)
  sortByCreated (sel.map eventToRow)

/-- `UsageTracker.calculate_total`: sum of `line_total` over the rows of
`get_unbilled_usage`. -/
def calculate_total (db : DB) (customer_id : String)
    (start_date : Option Int) : ℚ :=
  ((get_unbilled_usage db customer_id start_date).map (·.line_total)).sum

/-- The per-service accumulator of `generate_invoice`'s aggregation loop. -/
structure LineItem where
  quantity : ℚ
  unit : String
  unit_price : ℚ
  total : ℚ
deriving DecidableEq

/-- One iteration of the aggregation loop in `generate_invoice`: a Python
dict keyed by service, in first-appearance order; a new key is initialised
with the event's `unit` and `unit_price`, and `quantity`/`total` accumulate. -/
def addEvent : List (String × LineItem) → EventRow → List (String × LineItem)
  | [], r => [(r.service, ⟨r.quantity, r.unit, r.unit_price, r.line_total⟩)]
  | (s, it) :: rest, r =>
    if s = r.service then
      (s, { it with quantity := it.quantity + r.quantity,
                    total := it.total + r.line_total }) :: rest
    else (s, it) :: addEvent rest r

/-- The full aggregation loop (`for event in events: ...`). -/
def aggregate (rows : List EventRow) : List (String × LineItem) :=
  rows.foldl addEvent []

/-- Python `int(x)`: truncation toward zero. -/
def pyInt (q : ℚ) : Int := if 0 ≤ q then ⌊q⌋ else -⌊-q⌋

/-- What `BillingEngine.generate_invoice` returns: the no-usage error dict,
the Stripe-error dict, or the invoice dict (its line items and the
`amount_cents` reported by the gateway). -/
inductive GenResult where
  | noUsage : GenResult
  | gatewayError : GenResult
  | invoice : List (String × LineItem) → Int → GenResult
deriving DecidableEq

/-- `BillingEngine.generate_invoice`.  `now` is `datetime.now()`; the period
is `[now - billing_period_days, now]` (one day = one clock tick of the
abstracted clock).  `gw_ok` says whether any Stripe call raised
`StripeError`; `gw_invoice_id` and `gw_status` are the id and status the
gateway returns.  Each line item is submitted to the gateway with amount
`int(item["total"] * 100)`, and the gateway's `amount_due` is the sum of
those amounts.  On success the invoice row is inserted into the local
`invoices` table; the `usage_events` table is never written. -/
def generate_invoice (db : DB) (customer_id : String) (gw_ok : Bool)
    (gw_invoice_id gw_status : String) (now billing_period_days : Int) :
    GenResult × DB :=
  let period_start := now - billing_period_days
  let events := get_unbilled_usage db customer_id (some period_start)
  if events.isEmpty then (GenResult.noUsage, db)
  else if gw_ok then
    let items := aggregate events
    let amount_due := (items.map fun p => pyInt (p.2.total * 100)).sum
    let inv : InvoiceRec :=
      { id := db.next_invoice_id, customer_id := customer_id,
        stripe_invoice_id := gw_invoice_id, amount_cents := amount_due,
        status := gw_status, period_start := period_start, period_end := now,
        paid_at := none }
    (GenResult.invoice items amount_due,
     { db with invoices := db.invoices ++ [inv],
               next_invoice_id := db.next_invoice_id + 1 })
  else (GenResult.gatewayError, db)

/-- `BillingEngine.check_payment_status`: when the gateway reports the
invoice `paid`, every local row with that `stripe_invoice_id` gets
`status = "paid"` and `paid_at = now`, unconditionally on its previous
status; otherwise the local table is untouched. -/
def check_payment_status (db : DB) (stripe_invoice_id : String)
    (gw_status : String) (now : Int) : DB :=
  if gw_status = "paid" then
    { db with invoices := db.invoices.map fun inv =>
        if inv.stripe_invoice_id = stripe_invoice_id then
          { inv with status := "paid", paid_at := some now }
        else inv }
  else db

/-- Round a rational to the nearest integer, ties to the even neighbour
(the rounding of Python's `round`). -/
def roundHalfEvenZ (q : ℚ) : Int :=
  let f : Int := ⌊q⌋
  if q - f < 1/2 then f
  else if (1:ℚ)/2 < q - f then f + 1
  else if Even f then f else f + 1

/-- Python `round(x, n)` on exact rationals: round-half-even at the n-th
decimal. -/
def pyRound (q : ℚ) (n : Nat) : ℚ :=
  (roundHalfEvenZ (q * (10 : ℚ) ^ n) : ℚ) / (10 : ℚ) ^ n

/-- The dict returned by `CostProjector.project_api_service`. -/
structure ApiProjection where
  calls_per_month : Int
  monthly_cost : ℚ
  monthly_revenue : ℚ
  monthly_profit : ℚ
  margin_percent : ℚ
  recommendation : String
deriving DecidableEq

/-- Raw (pre-rounding) margin percentage computed by
`project_api_service`, with the division-by-zero guard. -/
def apiMarginRaw (expected_calls_per_month : Int)
    (api_cost_per_call proposed_price_per_1k : ℚ) : ℚ :=
  let monthly_cost := (expected_calls_per_month : ℚ) * api_cost_per_call
  let monthly_revenue :=
    ((expected_calls_per_month : ℚ) / 1000) * proposed_price_per_1k
  if 0 < monthly_revenue then
    (monthly_revenue - monthly_cost) / monthly_revenue * 100
  else 0

/-- `CostProjector.project_api_service`: pure arithmetic, no I/O.  The
recommendation compares the unrounded margin with the hard-coded threshold
50; the returned fields are rounded (`round(x,2)`, `round(x,1)`). -/
def project_api_service (expected_calls_per_month : Int)
    (api_cost_per_call proposed_price_per_1k : ℚ) : ApiProjection :=
  let monthly_cost := (expected_calls_per_month : ℚ) * api_cost_per_call
  let monthly_revenue :=
    ((expected_calls_per_month : ℚ) / 1000) * proposed_price_per_1k
  let monthly_profit := monthly_revenue - monthly_cost
  let margin_percent :=
    if 0 < monthly_revenue then monthly_profit / monthly_revenue * 100 else 0
  { calls_per_month := expected_calls_per_month,
    monthly_cost := pyRound monthly_cost 2,
    monthly_revenue := pyRound monthly_revenue 2,
    monthly_profit := pyRound monthly_profit 2,
    margin_percent := pyRound margin_percent 1,
    recommendation :=
      if 50 ≤ margin_percent then "Viable"
      else "Thin margins - increase price or reduce costs" }

/-- The dict returned by `CostProjector.project_compute_service`. -/
structure ComputeProjection where
  hours_per_month : Int
  monthly_cost : ℚ
  monthly_revenue : ℚ
  monthly_profit : ℚ
  margin_percent : ℚ
  recommendation : String
deriving DecidableEq

/-- Raw (pre-rounding) margin percentage computed by
`project_compute_service`, with the division-by-zero guard. -/
def computeMarginRaw (hours_per_month : Int)
    (compute_cost_per_hour hourly_rate : ℚ) : ℚ :=
  let monthly_cost := (hours_per_month : ℚ) * compute_cost_per_hour
  let monthly_revenue := (hours_per_month : ℚ) * hourly_rate
  if 0 < monthly_revenue then
    (monthly_revenue - monthly_cost) / monthly_revenue * 100
  else 0

/-- `CostProjector.project_compute_service`: same shape as the API
projection, threshold 60. -/
def project_compute_service (hours_per_month : Int)
    (compute_cost_per_hour hourly_rate : ℚ) : ComputeProjection :=
  let monthly_cost := (hours_per_month : ℚ) * compute_cost_per_hour
  let monthly_revenue := (hours_per_month : ℚ) * hourly_rate
  let monthly_profit := monthly_revenue - monthly_cost
  let margin_percent :=
    if 0 < monthly_revenue then monthly_profit / monthly_revenue * 100 else 0
  { hours_per_month := hours_per_month,
    monthly_cost := pyRound monthly_cost 2,
    monthly_revenue := pyRound monthly_revenue 2,
    monthly_profit := pyRound monthly_profit 2,
    margin_percent := pyRound margin_percent 1,
    recommendation :=
      if 60 ≤ margin_percent then "Viable"
      else "Increase hourly rate or optimize compute" }

/-- Python dict lookup `line_items[service]` on the association list kept in
first-appearance order: the first entry with the given key. -/
def lookupItem (s : String) : List (String × LineItem) → Option LineItem
  | [] => none
  | (s0, it) :: rest => if s0 = s then some it else lookupItem s rest

/-- Sum of the `quantity` fields of a row list. -/
def sumQ (l : List EventRow) : ℚ := (l.map (·.quantity)).sum

/-- Sum of the `line_total` fields of a row list. -/
def sumLT (l : List EventRow) : ℚ := (l.map (·.line_total)).sum

/-! ### Concrete inputs used to exercise the operations -/

/-- A store holding one recorded event: customer `c1`, one `api_calls` unit at
price 1, recorded at time 5. -/
def dbOne : DB := track_event DB.empty "c1" "api_calls" 1 "calls" 1 5

/-- The line-item list the aggregation produces for `dbOne`. -/
def itemOne : List (String × LineItem) := [("api_calls", ⟨1, "calls", 1, 1⟩)]

/-- `dbOne`'s single event as `get_unbilled_usage` returns it. -/
def rowOne : EventRow := ⟨1, "api_calls", 1, "calls", 1, 5, 1⟩

/-- A first successful invoice generation over `dbOne`, period `[-20, 10]`
(covering the event). -/
def genFirst : GenResult × DB := generate_invoice dbOne "c1" true "in_1" "open" 10 30

/-- A second successful invoice generation over the same customer and an
overlapping period, after the first one committed. -/
def genSecond : GenResult × DB := generate_invoice genFirst.2 "c1" true "in_2" "open" 10 30

/-- The two events of the spec's worked example: `("c1","api_calls",1000,
"calls",0.01)` and `("c1","data_gb",2.5,"GB",5.00)`. -/
def dbExample : DB :=
  track_event (track_event DB.empty "c1" "api_calls" 1000 "calls" (1/100) 5)
    "c1" "data_gb" (5/2) "GB" 5 6

/-- Two services whose exact subtotals are 1.9 cents each (unit price
$0.019, quantity 1). -/
def dbCents : DB :=
  track_event (track_event DB.empty "c1" "s1" 1 "u" (19/1000) 5)
    "c1" "s2" 1 "u" (19/1000) 6

/-- A store whose one local invoice record was created while the gateway
reported status `void`. -/
def dbVoid : DB := (generate_invoice dbOne "c1" true "in_1" "void" 10 30).2

/-- A local invoice record already in the terminal `paid` status. -/
def invPaid : InvoiceRec := ⟨1, "c1", "in_1", 100, "paid", 0, 10, none⟩

/-- What `check_payment_status` turns `invPaid` into when the gateway
reports `paid` at time 99. -/
def invPaidAfter : InvoiceRec := ⟨1, "c1", "in_1", 100, "paid", 0, 10, some 99⟩

/-- A store holding only the already-paid invoice record `invPaid`. -/
def dbPaid : DB := ⟨[], 1, [invPaid], 2⟩

/-- Two events of the same service recorded at different unit prices
(price 1 at time 5, then price 10 at time 6). -/
def dbTwoPrices : DB :=
  track_event (track_event DB.empty "c1" "api_calls" 2 "calls" 1 5)
    "c1" "api_calls" 3 "calls" 10 6

end BillingEngine

namespace BillingEngine

/-- C1: once an invoice covering an event is committed, the code still
includes that event in any later `generate_invoice` over an overlapping
period: nothing is ever marked billed.  Event 1 is `dbOne`'s only event;
the first call commits an invoice charging it (100 cents), and the second
call, run after the first committed, charges the same event again. -/
theorem c1_double_billing :
    genFirst.1 = GenResult.invoice itemOne 100 ∧
    genFirst.2.invoices.map (·.stripe_invoice_id) = ["in_1"] ∧
    genSecond.1 = GenResult.invoice itemOne 100 ∧
    dbOne.events.map (·.id) = [1] ∧
    genFirst.2.events = dbOne.events := by
  refine ⟨?_, ?_, ?_, ?_, ?_⟩ <;>
    simp [genSecond, genFirst, dbOne, itemOne, track_event, DB.empty,
      generate_invoice, get_unbilled_usage, sortByCreated, insertByCreated,
      eventToRow, aggregate, addEvent, pyInt]

/-- C2: `generate_invoice` takes no reservation and never writes the
`usage_events` table, so two calls whose reads interleave (both reading the
same store, as neither writes it) both succeed and both charge the same
event; no `ConflictError` outcome exists in the code. -/
theorem c2_no_reservation :
    (∀ (db : DB) (c : String) (ok : Bool) (gid gst : String) (now days : Int),
      ((generate_invoice db c ok gid gst now days).2).events = db.events) ∧
    (generate_invoice dbOne "c1" true "in_A" "open" 10 30).1 =
      GenResult.invoice itemOne 100 ∧
    (generate_invoice dbOne "c1" true "in_B" "open" 10 30).1 =
      GenResult.invoice itemOne 100 := by
  refine ⟨fun db c ok gid gst now days => ?_, ?_, ?_⟩
  · by_cases h1 : (get_unbilled_usage db c (some (now - days))).isEmpty <;>
      cases ok <;> simp [generate_invoice, h1]
  all_goals
    simp [dbOne, itemOne, track_event, DB.empty, generate_invoice,
      get_unbilled_usage, sortByCreated, insertByCreated, eventToRow,
      aggregate, addEvent, pyInt]

/-- C3: after an invoice covering `dbOne`'s event was committed
(`genFirst.2` holds the invoice record), `get_unbilled_usage` still returns
that event: the query has no billed/unbilled restriction, so it does not
return "exactly the events not yet committed as BILLED". -/
theorem c3_billed_event_still_returned :
    genFirst.2.invoices.map (·.status) = ["open"] ∧
    get_unbilled_usage genFirst.2 "c1" none = [rowOne] ∧
    get_unbilled_usage dbOne "c1" none = [rowOne] := by
  refine ⟨?_, ?_, ?_⟩ <;>
    simp [genFirst, dbOne, rowOne, track_event, DB.empty, generate_invoice,
      get_unbilled_usage, sortByCreated, insertByCreated, eventToRow,
      aggregate, addEvent, pyInt]

/-- C5 fails on the code: `track_event` with a negative quantity does not
fail — it records the event. -/
theorem c5_counterexample :
    (track_event DB.empty "c1" "api_calls" (-1) "calls" (1/100) 5).events =
      [⟨1, "c1", "api_calls", -1, "calls", 1/100, 5⟩] := by
  simp [track_event, DB.empty]

/-- C5 amended: `track_event` performs no validation at all: for every
input, including negative quantities or prices, it succeeds and appends an
event carrying exactly the given values. -/
theorem c5_no_validation :
    ∀ (db : DB) (cid s : String) (q : ℚ) (u : String) (p : ℚ) (t : Int),
      (track_event db cid s q u p t).events =
        db.events ++ [⟨db.next_event_id, cid, s, q, u, p, t⟩] ∧
      (track_event db cid s q u p t).invoices = db.invoices :=
  fun _ _ _ _ _ _ _ => ⟨rfl, rfl⟩

/-- C6: the spec's worked example.  Recording `("c1","api_calls",1000,
"calls",0.01)` and `("c1","data_gb",2.5,"GB",5.00)` and generating an
invoice over a period covering both yields the `api_calls` line with
quantity 1000 and gateway amount `int(10.00 * 100) = 1000` minor units, and
an invoice total of 2250 minor units. -/
theorem c6_worked_example :
    (generate_invoice dbExample "c1" true "in_1" "open" 10 30).1 =
      GenResult.invoice
        [("api_calls", ⟨1000, "calls", 1/100, 10⟩), ("data_gb", ⟨5/2, "GB", 5, 25/2⟩)]
        2250 ∧
    pyInt ((10 : ℚ) * 100) = 1000 := by
  constructor <;>
    simp [dbExample, track_event, DB.empty, generate_invoice,
      get_unbilled_usage, sortByCreated, insertByCreated, eventToRow,
      aggregate, addEvent, pyInt] <;> norm_num

/-- C8 fails on the code: a local invoice record whose status is `void`
(the status the gateway reported when it was created) is overwritten to
`paid` by `check_payment_status` as soon as the gateway reports `paid`:
the `UPDATE` has no condition on the previous local status. -/
theorem c8_counterexample :
    dbVoid.invoices.map (·.status) = ["void"] ∧
    (check_payment_status dbVoid "in_1" "paid" 99).invoices.map (·.status) =
      ["paid"] := by
  constructor <;>
    simp [dbVoid, dbOne, track_event, DB.empty, generate_invoice,
      check_payment_status, get_unbilled_usage, sortByCreated,
      insertByCreated, eventToRow, aggregate, addEvent, pyInt]

/-- C7 fails on the code as stated: the returned `margin_percent` field is
rounded to one decimal, but the viability recommendation compares the
unrounded margin with the threshold.  At volume 1000000, unit cost
0.0005004 and price 1 per 1000 calls the raw margin is 49.96, so the
returned `margin_percent` is 50 — at the threshold — yet the
recommendation is not `Viable`: `viable = marginPercent >= threshold` fails
on the returned field. -/
theorem c7_counterexample :
    (project_api_service 1000000 (5004/10000000) 1).margin_percent = 50 ∧
    (project_api_service 1000000 (5004/10000000) 1).recommendation ≠ "Viable" := by
  constructor <;> simp [project_api_service, pyRound, roundHalfEvenZ] <;>
    norm_num [Int.fract]

/-- C7 amended: `project_api_service` is pure arithmetic, the
recommendation is `Viable` exactly when the unrounded margin percentage is
at least the hard-coded threshold 50, and on the spec's concrete input
(volume 50000, unit cost 0.002, price 5.0 per 1000 calls) it returns
cost 100, revenue 250, profit 150, margin 60% and the `Viable`
recommendation. -/
theorem c7_margin_semantics :
    (∀ (v : Int) (c p : ℚ),
      ((project_api_service v c p).recommendation = "Viable" ↔
        50 ≤ apiMarginRaw v c p)) ∧
    project_api_service 50000 (2/1000) 5 =
      { calls_per_month := 50000, monthly_cost := 100, monthly_revenue := 250,
        monthly_profit := 150, margin_percent := 60,
        recommendation := "Viable" } := by
  constructor
  · intro v c p
    simp only [project_api_service, apiMarginRaw]
    split <;> rename_i h <;> simp [h]
  · simp [project_api_service, pyRound, roundHalfEvenZ]
    norm_num

/-- C10: both projection functions guard the margin division: whenever the
computed monthly revenue is not positive, `margin_percent` is 0 (no
division by zero) and the recommendation is not `Viable`, since 0 is below
both thresholds (50 and 60). -/
theorem c10_zero_revenue_guard :
    (∀ (v : Int) (c p : ℚ), ((v : ℚ) / 1000) * p ≤ 0 →
      (project_api_service v c p).margin_percent = 0 ∧
      (project_api_service v c p).recommendation ≠ "Viable") ∧
    (∀ (h : Int) (c r : ℚ), (h : ℚ) * r ≤ 0 →
      (project_compute_service h c r).margin_percent = 0 ∧
      (project_compute_service h c r).recommendation ≠ "Viable") := by
  constructor
  · intro v c p hrev
    have hneg : ¬ (0 < ((v : ℚ) / 1000) * p) := not_lt.mpr hrev
    constructor
    · simp [project_api_service, hneg, pyRound, roundHalfEvenZ]
    · simp [project_api_service, hneg]
  · intro h c r hrev
    have hneg : ¬ (0 < (h : ℚ) * r) := not_lt.mpr hrev
    constructor
    · simp [project_compute_service, hneg, pyRound, roundHalfEvenZ]
    · simp [project_compute_service, hneg]

/-- C10 at a concrete input: zero expected volume gives margin 0 and a
non-`Viable` recommendation from both projection functions. -/
theorem c10_witness :
    (project_api_service 0 1 1).margin_percent = 0 ∧
    (project_api_service 0 1 1).recommendation ≠ "Viable" ∧
    (project_compute_service 0 1 1).margin_percent = 0 ∧
    (project_compute_service 0 1 1).recommendation ≠ "Viable" := by
  have h1 := c10_zero_revenue_guard.1 0 1 1 (by norm_num)
  have h2 := c10_zero_revenue_guard.2 0 1 1 (by norm_num)
  exact ⟨h1.1, h1.2, h2.1, h2.2⟩

end BillingEngine

namespace BillingEngine

theorem lookupItem_addEvent_miss (acc : List (String × LineItem)) (r : EventRow)
    (s : String) (h : r.service ≠ s) :
    lookupItem s (addEvent acc r) = lookupItem s acc := by
  induction acc with
  | nil => simp [addEvent, lookupItem, h]
  | cons p rest ih =>
    obtain ⟨s0, it⟩ := p
    by_cases h0 : s0 = r.service
    · subst h0
      simp [addEvent, lookupItem, h]
    · simp [addEvent, h0, lookupItem]
      split
      · rfl
      · exact ih

theorem lookupItem_addEvent_hit_none (acc : List (String × LineItem)) (r : EventRow)
    (s : String) (h : lookupItem s acc = none) (hs : r.service = s) :
    lookupItem s (addEvent acc r) =
      some ⟨r.quantity, r.unit, r.unit_price, r.line_total⟩ := by
  induction acc with
  | nil => simp [addEvent, lookupItem, hs]
  | cons p rest ih =>
    obtain ⟨s0, it⟩ := p
    simp only [lookupItem] at h
    by_cases h0 : s0 = s
    · simp [h0] at h
    · simp only [h0, if_false] at h
      by_cases h1 : s0 = r.service
      · exact absurd (h1.trans hs) h0
      · simp [addEvent, h1, lookupItem, h0, ih h]

theorem lookupItem_addEvent_hit_some (acc : List (String × LineItem)) (r : EventRow)
    (s : String) (it : LineItem) (h : lookupItem s acc = some it) (hs : r.service = s) :
    lookupItem s (addEvent acc r) =
      some ⟨it.quantity + r.quantity, it.unit, it.unit_price,
            it.total + r.line_total⟩ := by
  induction acc with
  | nil => simp [lookupItem] at h
  | cons p rest ih =>
    obtain ⟨s0, it0⟩ := p
    simp only [lookupItem] at h
    by_cases h0 : s0 = s
    · simp only [h0, if_true, Option.some.injEq] at h
      subst h
      have h1 : s0 = r.service := h0.trans hs.symm
      simp [addEvent, h1, lookupItem, h0, hs]
    · simp only [h0, if_false] at h
      by_cases h1 : s0 = r.service
      · exact absurd (h1.trans hs) h0
      · simp [addEvent, h1, lookupItem, h0, ih h]

theorem lookupItem_foldl_some (rows : List EventRow) (acc : List (String × LineItem))
    (s : String) (it : LineItem) (h : lookupItem s acc = some it) :
    lookupItem s (rows.foldl addEvent acc) =
      some ⟨it.quantity + sumQ (rows.filter fun r => r.service == s), it.unit,
            it.unit_price, it.total + sumLT (rows.filter fun r => r.service == s)⟩ := by
  induction rows generalizing acc it with
  | nil => simp [sumQ, sumLT, h]
  | cons r rest ih =>
    simp only [List.foldl_cons]
    by_cases hs : r.service = s
    · rw [ih _ _ (lookupItem_addEvent_hit_some acc r s it h hs)]
      simp only [List.filter_cons, hs, beq_self_eq_true, if_true, sumQ, sumLT,
        List.map_cons, List.sum_cons]
      congr 1
      ring_nf
    · rw [ih _ _ ((lookupItem_addEvent_miss acc r s hs).trans h)]
      have : (r.service == s) = false := beq_eq_false_iff_ne.mpr hs
      simp [List.filter_cons, this]

theorem lookupItem_foldl_none (rows : List EventRow) (acc : List (String × LineItem))
    (s : String) (h : lookupItem s acc = none) :
    lookupItem s (rows.foldl addEvent acc) =
      match rows.filter (fun r => r.service == s) with
      | [] => none
      | e :: es => some ⟨e.quantity + sumQ es, e.unit, e.unit_price,
                         e.line_total + sumLT es⟩ := by
  induction rows generalizing acc with
  | nil => simp [h]
  | cons r rest ih =>
    simp only [List.foldl_cons]
    by_cases hs : r.service = s
    · rw [lookupItem_foldl_some rest _ s _ (lookupItem_addEvent_hit_none acc r s h hs)]
      simp [List.filter_cons, hs]
    · rw [ih _ ((lookupItem_addEvent_miss acc r s hs).trans h)]
      have : (r.service == s) = false := beq_eq_false_iff_ne.mpr hs
      simp [List.filter_cons, this]

theorem lookupItem_aggregate (rows : List EventRow) (s : String) (it : LineItem)
    (h : lookupItem s (aggregate rows) = some it) :
    ∃ e es, rows.filter (fun r => r.service == s) = e :: es ∧
      it = ⟨e.quantity + sumQ es, e.unit, e.unit_price, e.line_total + sumLT es⟩ := by
  have h0 : lookupItem s ([] : List (String × LineItem)) = none := rfl
  rw [show aggregate rows = rows.foldl addEvent [] from rfl,
    lookupItem_foldl_none rows [] s h0] at h
  rcases hf : rows.filter (fun r => r.service == s) with _ | ⟨e, es⟩
  · rw [hf] at h
    simp at h
  · rw [hf] at h
    simp only [Option.some.injEq] at h
    exact ⟨e, es, hf, h.symm⟩

end BillingEngine

namespace BillingEngine

theorem mem_insertByCreated {x r : EventRow} {l : List EventRow} :
    x ∈ insertByCreated r l ↔ x = r ∨ x ∈ l := by
  induction l with
  | nil => simp [insertByCreated]
  | cons y ys ih =>
    simp only [insertByCreated]
    split
    · simp [List.mem_cons]
    · simp only [List.mem_cons, ih]
      tauto

theorem mem_sortByCreated {x : EventRow} {l : List EventRow} :
    x ∈ sortByCreated l ↔ x ∈ l := by
  induction l with
  | nil => simp [sortByCreated]
  | cons y ys ih => simp [sortByCreated, mem_insertByCreated, ih]

theorem mem_get_unbilled {db : DB} {c : String} {st : Option Int} {r : EventRow}
    (h : r ∈ get_unbilled_usage db c st) : ∃ e ∈ db.events, r = eventToRow e := by
  simp only [get_unbilled_usage] at h
  rw [mem_sortByCreated] at h
  rcases List.mem_map.mp h with ⟨e, he, rfl⟩
  exact ⟨e, (List.mem_filter.mp he).1, rfl⟩

theorem line_total_get_unbilled {db : DB} {c : String} {st : Option Int} :
    ∀ r ∈ get_unbilled_usage db c st, r.line_total = r.quantity * r.unit_price := by
  intro r hr
  obtain ⟨e, _, rfl⟩ := mem_get_unbilled hr
  rfl

theorem sumLT_eq_sum_mul {l : List EventRow}
    (h : ∀ r ∈ l, r.line_total = r.quantity * r.unit_price) :
    sumLT l = (l.map fun r => r.quantity * r.unit_price).sum := by
  unfold sumLT
  rw [List.map_congr_left h]

/-- C9: in the invoice aggregation, the line item recorded under a service
carries the `unit` and `unit_price` of the first event of that service in
the order `get_unbilled_usage` returns (scan order sorted stably by
`created_at`), while its `quantity` and `total` are the sums of the
quantities and of `quantity × unit_price` over all of that service's
events in the period. -/
theorem c9_first_event_unit_price :
    ∀ (db : DB) (c : String) (st : Option Int) (s : String) (it : LineItem),
      lookupItem s (aggregate (get_unbilled_usage db c st)) = some it →
      ∃ e, ((get_unbilled_usage db c st).filter fun r => r.service == s).head? = some e ∧
        it.unit = e.unit ∧ it.unit_price = e.unit_price ∧
        it.quantity =
          (((get_unbilled_usage db c st).filter fun r => r.service == s).map
            (·.quantity)).sum ∧
        it.total =
          (((get_unbilled_usage db c st).filter fun r => r.service == s).map
            fun r => r.quantity * r.unit_price).sum := by
  intro db c st s it h
  obtain ⟨e, es, hf, hit⟩ := lookupItem_aggregate _ _ _ h
  subst hit
  refine ⟨e, by rw [hf]; rfl, rfl, rfl, ?_, ?_⟩
  · rw [hf]
    simp [sumQ]
  · rw [hf]
    have hall : ∀ r ∈ e :: es, r.line_total = r.quantity * r.unit_price := by
      intro r hr
      exact @line_total_get_unbilled db c st r (List.mem_of_mem_filter (hf ▸ hr))
    rw [List.map_cons, List.sum_cons, ← hall e (List.mem_cons_self e es),
      ← sumLT_eq_sum_mul (fun r hr => hall r (List.mem_cons_of_mem e hr))]

end BillingEngine

namespace BillingEngine

/-- C9 at a concrete input: two `api_calls` events with prices 1 and 10
aggregate into a line item with the first event's price 1, quantity
`2 + 3 = 5` and total `2·1 + 3·10 = 32`. -/
theorem c9_witness :
    ∃ e, ((get_unbilled_usage dbTwoPrices "c1" none).filter
        fun r => r.service == "api_calls").head? = some e ∧
      (⟨5, "calls", 1, 32⟩ : LineItem).unit = e.unit ∧
      (⟨5, "calls", 1, 32⟩ : LineItem).unit_price = e.unit_price ∧
      (⟨5, "calls", 1, 32⟩ : LineItem).quantity =
        (((get_unbilled_usage dbTwoPrices "c1" none).filter
          fun r => r.service == "api_calls").map (·.quantity)).sum ∧
      (⟨5, "calls", 1, 32⟩ : LineItem).total =
        (((get_unbilled_usage dbTwoPrices "c1" none).filter
          fun r => r.service == "api_calls").map
            fun r => r.quantity * r.unit_price).sum :=
  c9_first_event_unit_price dbTwoPrices "c1" none "api_calls" ⟨5, "calls", 1, 32⟩ (by
    simp [dbTwoPrices, track_event, DB.empty, get_unbilled_usage, sortByCreated,
      insertByCreated, eventToRow, aggregate, addEvent, lookupItem]
    norm_num)

end BillingEngine

namespace BillingEngine

theorem mem_addEvent {acc : List (String × LineItem)} {r : EventRow}
    {p : String × LineItem} (h : p ∈ addEvent acc r) : p ∈ acc ∨ p.1 = r.service := by
  induction acc with
  | nil =>
    simp only [addEvent, List.mem_singleton] at h
    right
    rw [h]
  | cons q rest ih =>
    obtain ⟨s0, it0⟩ := q
    by_cases h0 : s0 = r.service
    · simp only [addEvent] at h
      rw [if_pos h0] at h
      rcases List.mem_cons.mp h with h | h
      · right
        rw [h]
        exact h0
      · left
        exact List.mem_cons_of_mem _ h
    · simp only [addEvent] at h
      rw [if_neg h0] at h
      rcases List.mem_cons.mp h with h | h
      · left
        rw [h]
        exact List.mem_cons_self _ _
      · rcases ih h with h1 | h1
        · left
          exact List.mem_cons_of_mem _ h1
        · right
          exact h1

theorem mem_foldl_addEvent {rows : List EventRow} {acc : List (String × LineItem)}
    {p : String × LineItem} (h : p ∈ rows.foldl addEvent acc) :
    p ∈ acc ∨ ∃ r ∈ rows, p.1 = r.service := by
  induction rows generalizing acc with
  | nil => left; simpa using h
  | cons r rest ih =>
    rcases ih (by simpa using h) with h1 | ⟨r2, hr2, he⟩
    · rcases mem_addEvent h1 with h2 | h2
      · left; exact h2
      · right; exact ⟨r, List.mem_cons_self _ _, h2⟩
    · right; exact ⟨r2, List.mem_cons_of_mem _ hr2, he⟩

theorem addEvent_total_nonneg {acc : List (String × LineItem)} {r : EventRow}
    (hacc : ∀ q ∈ acc, 0 ≤ q.2.total) (hr : 0 ≤ r.line_total) :
    ∀ p ∈ addEvent acc r, 0 ≤ p.2.total := by
  induction acc with
  | nil =>
    intro p hp
    simp only [addEvent, List.mem_singleton] at hp
    rw [hp]
    exact hr
  | cons q rest ih =>
    obtain ⟨s0, it0⟩ := q
    intro p hp
    by_cases h0 : s0 = r.service
    · simp only [addEvent] at hp
      rw [if_pos h0] at hp
      rcases List.mem_cons.mp hp with hp | hp
      · rw [hp]
        exact add_nonneg (hacc _ (List.mem_cons_self _ _)) hr
      · exact hacc _ (List.mem_cons_of_mem _ hp)
    · simp only [addEvent] at hp
      rw [if_neg h0] at hp
      rcases List.mem_cons.mp hp with hp | hp
      · rw [hp]
        exact hacc _ (List.mem_cons_self _ _)
      · exact ih (fun q hq => hacc q (List.mem_cons_of_mem _ hq)) _ hp

theorem foldl_total_nonneg {rows : List EventRow} {acc : List (String × LineItem)}
    (hacc : ∀ q ∈ acc, 0 ≤ q.2.total) (hrows : ∀ r ∈ rows, 0 ≤ r.line_total) :
    ∀ p ∈ rows.foldl addEvent acc, 0 ≤ p.2.total := by
  induction rows generalizing acc with
  | nil => simpa using hacc
  | cons r rest ih =>
    intro p hp
    exact ih
      (addEvent_total_nonneg hacc (hrows r (List.mem_cons_self _ _)))
      (fun q hq => hrows q (List.mem_cons_of_mem _ hq)) p (by simpa using hp)

theorem addEvent_sumTotals (acc : List (String × LineItem)) (r : EventRow) :
    ((addEvent acc r).map fun p => p.2.total).sum =
      ((acc.map fun p => p.2.total)).sum + r.line_total := by
  induction acc with
  | nil => simp [addEvent]
  | cons q rest ih =>
    obtain ⟨s0, it0⟩ := q
    by_cases h0 : s0 = r.service
    · simp only [addEvent]
      rw [if_pos h0]
      simp only [List.map_cons, List.sum_cons]
      ring
    · simp only [addEvent]
      rw [if_neg h0]
      simp only [List.map_cons, List.sum_cons, ih]
      ring

theorem foldl_sumTotals (rows : List EventRow) :
    ∀ acc : List (String × LineItem),
      (((rows.foldl addEvent acc).map fun p => p.2.total)).sum =
        ((acc.map fun p => p.2.total)).sum + sumLT rows := by
  induction rows with
  | nil => intro acc; simp [sumLT]
  | cons r rest ih =>
    intro acc
    simp only [List.foldl_cons, ih, addEvent_sumTotals, sumLT, List.map_cons,
      List.sum_cons]
    ring

theorem addEvent_ne_nil (acc : List (String × LineItem)) (r : EventRow) :
    addEvent acc r ≠ [] := by
  cases acc with
  | nil => simp [addEvent]
  | cons q rest =>
    obtain ⟨s0, it0⟩ := q
    by_cases h0 : s0 = r.service
    · simp [addEvent, h0]
    · simp [addEvent, h0]

theorem foldl_addEvent_ne_nil (rows : List EventRow) :
    ∀ acc : List (String × LineItem), acc ≠ [] → rows.foldl addEvent acc ≠ [] := by
  induction rows with
  | nil => intro acc h; simpa using h
  | cons r rest ih =>
    intro acc _
    exact ih (addEvent acc r) (addEvent_ne_nil acc r)

theorem aggregate_ne_nil {rows : List EventRow} (h : rows ≠ []) :
    aggregate rows ≠ [] := by
  cases rows with
  | nil => exact absurd rfl h
  | cons r rest => exact foldl_addEvent_ne_nil rest (addEvent [] r) (addEvent_ne_nil [] r)

theorem pyInt_floor {q : ℚ} (h : 0 ≤ q) : pyInt q = ⌊q⌋ := by
  simp [pyInt, h]

theorem sum_trunc_bounds (items : List (String × LineItem))
    (h : ∀ p ∈ items, 0 ≤ p.2.total) :
    (((items.map fun p => pyInt (p.2.total * 100)).sum : Int) : ℚ) ≤
        100 * ((items.map fun p => p.2.total).sum) ∧
      100 * ((items.map fun p => p.2.total).sum) - items.length ≤
        (((items.map fun p => pyInt (p.2.total * 100)).sum : Int) : ℚ) := by
  induction items with
  | nil => simp
  | cons p rest ih =>
    have hp : 0 ≤ p.2.total := h p (List.mem_cons_self _ _)
    have hrest := ih (fun q hq => h q (List.mem_cons_of_mem _ hq))
    have hfloor : pyInt (p.2.total * 100) = ⌊p.2.total * 100⌋ :=
      pyInt_floor (by positivity)
    have h1 : (⌊p.2.total * 100⌋ : ℚ) ≤ p.2.total * 100 := Int.floor_le _
    have h2 : p.2.total * 100 - 1 < (⌊p.2.total * 100⌋ : ℚ) := Int.sub_one_lt_floor _
    simp only [List.map_cons, List.sum_cons, List.length_cons, hfloor]
    constructor
    · rw [Int.cast_add]
      linarith [hrest.1]
    · rw [Int.cast_add, Nat.cast_add, Nat.cast_one]
      linarith [hrest.2]

theorem sum_trunc_strict (items : List (String × LineItem)) (hne : items ≠ [])
    (h : ∀ p ∈ items, 0 ≤ p.2.total) :
    100 * ((items.map fun p => p.2.total).sum) - items.length <
      (((items.map fun p => pyInt (p.2.total * 100)).sum : Int) : ℚ) := by
  cases items with
  | nil => exact absurd rfl hne
  | cons p rest =>
    have hp : 0 ≤ p.2.total := h p (List.mem_cons_self _ _)
    have hrest := (sum_trunc_bounds rest (fun q hq => h q (List.mem_cons_of_mem _ hq))).2
    have hfloor : pyInt (p.2.total * 100) = ⌊p.2.total * 100⌋ :=
      pyInt_floor (by positivity)
    have h2 : p.2.total * 100 - 1 < (⌊p.2.total * 100⌋ : ℚ) := Int.sub_one_lt_floor _
    simp only [List.map_cons, List.sum_cons, List.length_cons, hfloor]
    rw [Int.cast_add, Nat.cast_add, Nat.cast_one]
    linarith

theorem generate_invoice_success {db : DB} {c gid gst : String} {now days : Int}
    {items : List (String × LineItem)} {amt : Int}
    (h : (generate_invoice db c true gid gst now days).1 = GenResult.invoice items amt) :
    items = aggregate (get_unbilled_usage db c (some (now - days))) ∧
    amt = (items.map fun p => pyInt (p.2.total * 100)).sum ∧
    get_unbilled_usage db c (some (now - days)) ≠ [] := by
  by_cases he : (get_unbilled_usage db c (some (now - days))).isEmpty
  · simp [generate_invoice, he] at h
  · simp only [generate_invoice, he, Bool.false_eq_true, if_false, if_true,
      GenResult.invoice.injEq] at h
    obtain ⟨h1, h2⟩ := h
    refine ⟨h1.symm, ?_, by simpa using he⟩
    rw [← h1, ← h2]

end BillingEngine

namespace BillingEngine

/-- C4 amended: in every successfully generated invoice, each line item's
gateway amount is the truncation toward zero of `100 ×` its per-service sum
of `quantity × unit_price` (`int(total * 100)`), no adjustment line item is
added (every line item corresponds to a service of the period's events),
the invoice total is the sum of those truncated amounts, and — when all
recorded quantities and prices are nonnegative — the total under-states the
exact total by less than one minor unit per line item. -/
theorem c4_truncation_semantics :
    ∀ (db : DB) (c gid gst : String) (now days : Int)
      (items : List (String × LineItem)) (amt : Int),
      (generate_invoice db c true gid gst now days).1 = GenResult.invoice items amt →
      amt = (items.map fun p => pyInt (p.2.total * 100)).sum ∧
      (∀ p ∈ items, ∃ r ∈ get_unbilled_usage db c (some (now - days)),
        p.1 = r.service) ∧
      (∀ (s : String) (it : LineItem), lookupItem s items = some it →
        it.total = (((get_unbilled_usage db c (some (now - days))).filter
          fun r => r.service == s).map fun r => r.quantity * r.unit_price).sum) ∧
      ((∀ e ∈ db.events, 0 ≤ e.quantity ∧ 0 ≤ e.unit_price) →
        (amt : ℚ) ≤ 100 * calculate_total db c (some (now - days)) ∧
        100 * calculate_total db c (some (now - days)) - items.length < (amt : ℚ)) := by
  intro db c gid gst now days items amt h
  obtain ⟨hitems, hamt, hne⟩ := generate_invoice_success h
  refine ⟨hamt, ?_, ?_, ?_⟩
  · intro p hp
    rw [hitems] at hp
    rcases mem_foldl_addEvent
        (show p ∈ (get_unbilled_usage db c (some (now - days))).foldl addEvent []
          from hp) with h1 | h1
    · simp at h1
    · exact h1
  · intro s it hlk
    rw [hitems] at hlk
    obtain ⟨e, es, hf, hit⟩ := lookupItem_aggregate _ _ _ hlk
    rw [hit, hf]
    have hall : ∀ r ∈ e :: es, r.line_total = r.quantity * r.unit_price := by
      intro r hr
      exact @line_total_get_unbilled db c (some (now - days)) r
        (List.mem_of_mem_filter (hf ▸ hr))
    show e.line_total + sumLT es = _
    rw [List.map_cons, List.sum_cons, ← hall e (List.mem_cons_self e es),
      ← sumLT_eq_sum_mul (fun r hr => hall r (List.mem_cons_of_mem e hr))]
  · intro hnn
    have hrownn : ∀ r ∈ get_unbilled_usage db c (some (now - days)),
        0 ≤ r.line_total := by
      intro r hr
      obtain ⟨e, he, rfl⟩ := mem_get_unbilled hr
      exact mul_nonneg (hnn e he).1 (hnn e he).2
    have hintot : ∀ p ∈ items, 0 ≤ p.2.total := by
      rw [hitems]
      exact foldl_total_nonneg (by simp) hrownn
    have hsum : ((items.map fun p => p.2.total)).sum =
        calculate_total db c (some (now - days)) := by
      rw [hitems]
      show (((get_unbilled_usage db c (some (now - days))).foldl addEvent []).map
        fun p => p.2.total).sum = _
      rw [foldl_sumTotals]
      simp [sumLT, calculate_total]
    have hinne : items ≠ [] := by
      rw [hitems]
      exact aggregate_ne_nil hne
    constructor
    · rw [hamt, ← hsum]
      exact (sum_trunc_bounds items hintot).1
    · rw [hamt, ← hsum]
      exact sum_trunc_strict items hinne hintot

/-- C4 fails on the code as stated: with two services whose exact subtotals
are 1.9 cents each, the code's line amount is `int(1.9) = 1` cent while
round-half-even gives 2 cents, no adjustment line item exists, and the
invoice total (2 cents) differs from the exact total (3.8 cents) by 1.8
minor units — more than one minor-unit rounding adjustment. -/
theorem c4_counterexample :
    (generate_invoice dbCents "c1" true "in_1" "open" 10 30).1 =
      GenResult.invoice
        [("s1", ⟨1, "u", 19/1000, 19/1000⟩), ("s2", ⟨1, "u", 19/1000, 19/1000⟩)] 2 ∧
    pyInt ((19/1000 : ℚ) * 100) = 1 ∧
    roundHalfEvenZ ((19/1000 : ℚ) * 100) = 2 ∧
    100 * calculate_total dbCents "c1" (some (10 - 30)) = 19/5 ∧
    ¬ ((19/5 : ℚ) - 2 ≤ 1) := by
  refine ⟨?_, ?_, ?_, ?_, by norm_num⟩ <;>
    simp [dbCents, track_event, DB.empty, generate_invoice, get_unbilled_usage,
      sortByCreated, insertByCreated, eventToRow, aggregate, addEvent, pyInt,
      roundHalfEvenZ, calculate_total] <;> norm_num [Int.fract]

/-- C4 amended theorem applied at the concrete store `dbCents`: the
invoice's 2-cent total sits below the exact 3.8-cent total by less than one
minor unit per line item (2 items). -/
theorem c4_witness :
    ((2 : Int) : ℚ) ≤ 100 * calculate_total dbCents "c1" (some (10 - 30)) ∧
    100 * calculate_total dbCents "c1" (some (10 - 30)) -
        ([("s1", (⟨1, "u", 19/1000, 19/1000⟩ : LineItem)),
          ("s2", ⟨1, "u", 19/1000, 19/1000⟩)] : List (String × LineItem)).length <
      ((2 : Int) : ℚ) :=
  (c4_truncation_semantics dbCents "c1" "in_1" "open" 10 30
    [("s1", ⟨1, "u", 19/1000, 19/1000⟩), ("s2", ⟨1, "u", 19/1000, 19/1000⟩)] 2
    (by
      simp [dbCents, track_event, DB.empty, generate_invoice, get_unbilled_usage,
        sortByCreated, insertByCreated, eventToRow, aggregate, addEvent, pyInt]
      norm_num)).2.2.2
    (by
      intro e he
      simp only [dbCents, track_event, DB.empty, List.nil_append,
        List.cons_append, List.mem_cons, List.not_mem_nil, or_false] at he
      rcases he with rfl | rfl <;> constructor <;> norm_num)

end BillingEngine

namespace BillingEngine

theorem mem_zip_map {α β : Type} {l : List α} {f : α → β} {p : α × β}
    (h : p ∈ l.zip (l.map f)) : p.2 = f p.1 ∧ p.1 ∈ l := by
  induction l with
  | nil => simp at h
  | cons x xs ih =>
    simp only [List.map_cons, List.zip_cons_cons, List.mem_cons] at h
    rcases h with rfl | h
    · exact ⟨rfl, List.mem_cons_self _ _⟩
    · obtain ⟨h1, h2⟩ := ih h
      exact ⟨h1, List.mem_cons_of_mem _ h2⟩

/-- C8 amended: `check_payment_status` changes a local invoice record only
by setting its status to `paid` (with `paid_at`) when the gateway reports
`paid`; a record already `paid` stays `paid` (PAID is terminal), and when
the gateway reports anything else the record is unchanged.  A `void` record
is NOT terminal: it too is overwritten to `paid` (see the counterexample). -/
theorem c8_paid_terminal :
    ∀ (db : DB) (sid gst : String) (now : Int),
      ∀ p ∈ db.invoices.zip ((check_payment_status db sid gst now).invoices),
        (p.2.status = p.1.status ∨ p.2.status = "paid") ∧
        (p.1.status = "paid" → p.2.status = "paid") ∧
        (gst ≠ "paid" → p.2 = p.1) := by
  intro db sid gst now p hp
  by_cases hg : gst = "paid"
  · rw [check_payment_status, if_pos hg] at hp
    obtain ⟨hfp, _⟩ := mem_zip_map hp
    refine ⟨?_, ?_, fun hcon => absurd hg hcon⟩
    · by_cases hi : p.1.stripe_invoice_id = sid
      · right
        rw [hfp]
        simp [hi]
      · left
        rw [hfp]
        simp [hi]
    · intro hpaid
      by_cases hi : p.1.stripe_invoice_id = sid
      · rw [hfp]
        simp [hi]
      · rw [hfp]
        simp [hi, hpaid]
  · rw [check_payment_status, if_neg hg] at hp
    have hid : p ∈ db.invoices.zip (db.invoices.map id) := by
      rw [List.map_id]
      exact hp
    obtain ⟨hfp, _⟩ := mem_zip_map hid
    exact ⟨Or.inl (by rw [hfp]; rfl), fun h => by rw [hfp]; exact h, fun _ => hfp⟩

/-- C8 amended theorem applied to a store holding one already-paid invoice
record: after a reconciliation step it is still `paid`. -/
theorem c8_witness :
    (invPaidAfter.status = invPaid.status ∨ invPaidAfter.status = "paid") ∧
    (invPaid.status = "paid" → invPaidAfter.status = "paid") ∧
    ("paid" ≠ "paid" → invPaidAfter = invPaid) :=
  c8_paid_terminal dbPaid "in_1" "paid" 99 (invPaid, invPaidAfter) (by decide)

end BillingEngine
